import Mathlib

/-
Verification development for the uwb_geofencing_alert repository.

Shallow embedding of:
  - src/services/geofencing_service.py : Zone, GeofencingService
    (hysteresis map, process_positions)
  - src/main.py : UWBCollector (CRC-16/MODBUS, auth packet construction,
    location-frame parsing, per-tag location-update processing,
    dashboard broadcast)

Modelling conventions:
  - Python float coordinates and timestamps are modelled as rationals;
    every claim under check only compares and subtracts them.
  - time.time is modelled as a single parameter now passed to an
    evaluation call (the two reads inside one call are identified).
  - the Python dict holding the hysteresis state is modelled as a
    function from keys to Option, with functional insert and erase.
  - bytes are modelled as List Nat, each element a byte value;
    out-of-range reads yield 0, and the parsing guards proved below
    keep every executed read in bounds.
-/

/-! ## Geofencing data model (src/services/geofencing_service.py) -/

/-- Zone dataclass: an axis-aligned rectangle with a name
(fields as in the Python dataclass). -/
structure Zone where
  min_x : ℚ
  min_y : ℚ
  max_x : ℚ
  max_y : ℚ
  name : String
deriving DecidableEq, Repr

/-- Cross product used for the point-in-convex-polygon test that models
Shapely contains/touches: orientation of p relative to edge a -> b. -/
def cross (a b p : ℚ × ℚ) : ℚ :=
  (b.1 - a.1) * (p.2 - a.2) - (b.2 - a.2) * (p.1 - a.1)

/-- A point is inside or on a counter-clockwise convex polygon iff it is on
the non-negative side of every directed edge of the vertex list. -/
def insideOrOnCCW (p : ℚ × ℚ) : List (ℚ × ℚ) → Bool
  | a :: b :: rest => decide (0 ≤ cross a b p) && insideOrOnCCW p (b :: rest)
  | _ => true

/-- The vertex list built in Zone.__post_init__ (counter-clockwise, closed
by repeating the first vertex). -/
def Zone.polygonVertices (z : Zone) : List (ℚ × ℚ) :=
  [(z.min_x, z.min_y), (z.max_x, z.min_y), (z.max_x, z.max_y),
   (z.min_x, z.max_y), (z.min_x, z.min_y)]

/-- Zone.contains_point: Shapely polygon.contains(point) or
polygon.touches(point), modelled as the closed point-in-convex-polygon test
on the rectangle built in Zone.__post_init__. -/
def Zone.contains_point (z : Zone) (x y : ℚ) : Bool :=
  insideOrOnCCW (x, y) z.polygonVertices

/-- Zone.__post_init__ coordinate validation: raising ValueError is
modelled as Except.error. -/
def mkZone (min_x min_y max_x max_y : ℚ) (name : String) :
    Except String Zone :=
  if min_x ≥ max_x then Except.error "min_x must be less than max_x"
  else if min_y ≥ max_y then Except.error "min_y must be less than max_y"
  else Except.ok ⟨min_x, min_y, max_x, max_y, name⟩

/-- Hysteresis key: (tag_id, zone_name), as in the _fired dict. -/
abbrev Key := Nat × String

/-- The _fired dict of GeofencingService, as a partial map. -/
def Fired := Key → Option ℚ

/-- Empty _fired dict. -/
def emptyFired : Fired := fun _ => none

/-- Dict assignment written in _mark_fired. -/
def insertFired (f : Fired) (k : Key) (t : ℚ) : Fired :=
  fun k' => if k' = k then some t else f k'

/-- Dict pop written in _clear_if_outside. -/
def eraseFired (f : Fired) (k : Key) : Fired :=
  fun k' => if k' = k then none else f k'

/-- GeofencingService configuration fields (zones, retrigger_after_sec,
target_tag_ids); the mutable _fired state is passed separately. -/
structure GeofencingService where
  zones : List Zone
  retrigger_after_sec : Option ℚ
  target_tag_ids : Option (List Nat)

/-- The retrigger decision of _can_fire as a function of the entry looked
up for the key. -/
def canFireEntry (svc : GeofencingService) (entry : Option ℚ) (now : ℚ) :
    Bool :=
  match svc.retrigger_after_sec with
  | none => entry.isNone
  | some r =>
    match entry with
    | none => true
    | some last => decide (r ≤ now - last)

/-- GeofencingService._can_fire. -/
def can_fire (svc : GeofencingService) (f : Fired) (k : Key) (now : ℚ) :
    Bool :=
  canFireEntry svc (f k) now

/-- GeofencingService._clear_if_outside. -/
def clear_if_outside (tag_id : Nat) (z : Zone) (p : ℚ × ℚ) (f : Fired) :
    Fired :=
  if z.contains_point p.1 p.2 then f else eraseFired f (tag_id, z.name)

/-- One alert dict appended by process_positions. -/
structure Alert where
  tag_id : Nat
  zone : Zone
  position : ℚ × ℚ
deriving DecidableEq, Repr

/-- The body of the inner zone loop of process_positions for one tag and
one zone: clear-if-outside, then the containment and retrigger branch. -/
def stepZone (svc : GeofencingService) (now : ℚ) (tag_id : Nat)
    (p : ℚ × ℚ) (z : Zone) (f : Fired) : Fired × List Alert :=
  let f1 := clear_if_outside tag_id z p f
  if z.contains_point p.1 p.2 then
    if can_fire svc f1 (tag_id, z.name) now then
      (insertFired f1 (tag_id, z.name) now, [⟨tag_id, z, p⟩])
    else (f1, [])
  else (f1, [])

/-- The inner zone loop of process_positions over the configured zones. -/
def processZones (svc : GeofencingService) (now : ℚ) (tag_id : Nat)
    (p : ℚ × ℚ) : List Zone → Fired → Fired × List Alert
  | [], f => (f, [])
  | z :: zs, f =>
    let r1 := stepZone svc now tag_id p z f
    let r2 := processZones svc now tag_id p zs r1.1
    (r2.1, r1.2 ++ r2.2)

/-- The target-tag filter at the top of the outer loop of
process_positions: a continue happens when target_tag_ids is truthy
(non-None and non-empty) and the tag is not in it. -/
def skipTag (svc : GeofencingService) (tag_id : Nat) : Bool :=
  match svc.target_tag_ids with
  | none => false
  | some l => !l.isEmpty && !l.contains tag_id

/-- The outer loop of process_positions over the batch of positions
(Python dict iteration, modelled as a list of key-value pairs). -/
def processTags (svc : GeofencingService) (now : ℚ) :
    List (Nat × (ℚ × ℚ)) → Fired → Fired × List Alert
  | [], f => (f, [])
  | (tag_id, p) :: rest, f =>
    if skipTag svc tag_id then processTags svc now rest f
    else
      let r1 := processZones svc now tag_id p svc.zones f
      let r2 := processTags svc now rest r1.1
      (r2.1, r1.2 ++ r2.2)

/-- GeofencingService.process_positions: evaluates a batch against the
configured zones, returning the updated _fired state and the alert list.
The latest_positions bookkeeping of the source is not modelled; no claim
under check mentions it. -/
def process_positions (svc : GeofencingService) (now : ℚ)
    (positions : List (Nat × (ℚ × ℚ))) (f : Fired) : Fired × List Alert :=
  processTags svc now positions f

/-! ## Frame codec (src/main.py, UWBCollector) -/

/-- Byte list as an abstraction of Python bytes. -/
abbrev Bytes := List Nat

/-- Read one byte (0 past the end; the guards in the parser keep every
executed read in bounds). -/
def byteAt (data : Bytes) (i : Nat) : Nat := data.getD i 0

/-- struct.unpack big-endian unsigned 16-bit at offset i. -/
def u16be (data : Bytes) (i : Nat) : Nat :=
  byteAt data i * 256 + byteAt data (i + 1)

/-- struct.unpack big-endian unsigned 32-bit at offset i. -/
def u32be (data : Bytes) (i : Nat) : Nat :=
  ((byteAt data i * 256 + byteAt data (i + 1)) * 256
     + byteAt data (i + 2)) * 256 + byteAt data (i + 3)

/-- Reinterpret an unsigned w-bit value as two's-complement signed. -/
def toSigned (w n : Nat) : Int :=
  if n < 2 ^ (w - 1) then (n : Int) else (n : Int) - 2 ^ w

/-- struct.unpack big-endian signed 32-bit at offset i. -/
def i32be (data : Bytes) (i : Nat) : Int := toSigned 32 (u32be data i)

/-- struct.unpack big-endian signed 16-bit at offset i. -/
def i16be (data : Bytes) (i : Nat) : Int := toSigned 16 (u16be data i)

/-- TagLocationInfo dataclass of src/main.py. -/
structure TagLocationInfo where
  tag_id : Nat
  x_coordinate : ℚ
  y_coordinate : ℚ
  z_coordinate : ℚ
  map_id : Nat
  battery : Nat
  sleep_flag : Bool
  charging_flag : Bool
  timestamp : Nat
  floor_number : Nat
  positioning_indication : Nat
  coordinate_type : String
deriving DecidableEq, Repr

/-- Parse one 23-byte tag record at the given offset, applying the
frame-type dependent coordinate scaling of the source. -/
def parseOneTag (data : Bytes) (offset : Nat) (frame_type : Nat)
    (coordinate_type : String) : TagLocationInfo :=
  let tag_id := u32be data offset
  let x_raw := i32be data (offset + 4)
  let y_raw := i32be data (offset + 8)
  let z_raw := i16be data (offset + 12)
  let map_id := byteAt data (offset + 14)
  let battery := byteAt data (offset + 15)
  let sleep_charge_flag := byteAt data (offset + 16)
  let sleep_flag := decide ((sleep_charge_flag >>> 4) &&& 0x0F ≠ 0)
  let charging_flag := decide (sleep_charge_flag &&& 0x0F ≠ 0)
  let timestamp := u32be data (offset + 17)
  let floor_number := byteAt data (offset + 21)
  let positioning_ind := byteAt data (offset + 22)
  let coords : ℚ × ℚ × ℚ :=
    if frame_type = 0xB4 then
      ((x_raw : ℚ) / 10000000, (y_raw : ℚ) / 10000000, 0)
    else
      ((x_raw : ℚ) / 100, (y_raw : ℚ) / 100, (z_raw : ℚ) / 100)
  { tag_id := tag_id
    x_coordinate := coords.1
    y_coordinate := coords.2.1
    z_coordinate := coords.2.2
    map_id := map_id
    battery := battery
    sleep_flag := sleep_flag
    charging_flag := charging_flag
    timestamp := timestamp
    floor_number := floor_number
    positioning_indication := positioning_ind
    coordinate_type := coordinate_type }

/-- The per-record loop of _parse_tag_location_data: n remaining records
from the given offset; the early-stop guard (break when the record would
read past the trailing 4-byte footer) ends the list with what was parsed
so far. -/
def parseTagRecords (data : Bytes) (frame_type : Nat)
    (coordinate_type : String) : Nat → Nat → List TagLocationInfo
  | 0, _ => []
  | n + 1, offset =>
    if offset + 23 > data.length - 4 then []
    else
      parseOneTag data offset frame_type coordinate_type ::
        parseTagRecords data frame_type coordinate_type n (offset + 23)

/-- The coordinate-type dispatch on the frame-type byte: none models the
else branch that returns an empty list. -/
def coordinateTypeOf (frame_type : Nat) : Option String :=
  if frame_type = 0x81 then some "relative"
  else if frame_type = 0xB4 then some "longitude_latitude"
  else if frame_type = 0xB5 then some "global"
  else none

/-- UWBCollector._parse_tag_location_data: guards for length, header,
frame type, tag count and declared size, then the record loop. -/
def parse_tag_location_data (data : Bytes) : List TagLocationInfo :=
  if data.length < 5 then []
  else
    let header := u16be data 0
    let frame_type := byteAt data 2
    if header ≠ 0xCC5F then []
    else
      match coordinateTypeOf frame_type with
      | none => []
      | some coordinate_type =>
        let num_tags := byteAt data 3
        if num_tags = 0 then []
        else if data.length < 4 + num_tags * 23 + 4 then []
        else parseTagRecords data frame_type coordinate_type num_tags 4

/-- One round of the inner bit loop of _calculate_crc16_modbus. -/
def crcBitStep (crc : Nat) : Nat :=
  if crc &&& 0x0001 ≠ 0 then (crc >>> 1) ^^^ 0xA001 else crc >>> 1

/-- One byte of _calculate_crc16_modbus: xor the byte in, then 8 bit
rounds. -/
def crcByteStep (crc b : Nat) : Nat :=
  (crcBitStep ∘ crcBitStep ∘ crcBitStep ∘ crcBitStep ∘ crcBitStep ∘
    crcBitStep ∘ crcBitStep ∘ crcBitStep) (crc ^^^ b)

/-- UWBCollector._calculate_crc16_modbus. -/
def calculate_crc16_modbus (data : Bytes) : Nat :=
  data.foldl crcByteStep 0xFFFF

/-- struct.pack of format B (one byte). -/
def packB (n : Nat) : Bytes := [n &&& 0xFF]

/-- struct.pack of big-endian format H (two bytes). -/
def packH (n : Nat) : Bytes := [(n >>> 8) &&& 0xFF, n &&& 0xFF]

/-- struct.pack of big-endian format I (four bytes). -/
def packI (n : Nat) : Bytes :=
  [(n >>> 24) &&& 0xFF, (n >>> 16) &&& 0xFF, (n >>> 8) &&& 0xFF,
   n &&& 0xFF]

/-- UWBCollector._create_auth_packet. The MD5 hexdigest-then-encode
composition is passed in as a function on byte strings (its internals are
outside the frame-layout claims); username, password and the salt
instance field are byte strings. -/
def create_auth_packet (md5hex : Bytes → Bytes)
    (username password salt : Bytes) : Bytes :=
  let pwd_md5 := md5hex password
  let salt_pwd := md5hex (pwd_md5 ++ salt)
  let frame_header := packH 0xCC5F
  let frame_type := packB 0x27
  let username_len := packI username.length
  let password_len := packI salt_pwd.length
  let crc_data :=
    frame_type ++ username_len ++ username ++ password_len ++ salt_pwd
  let crc := calculate_crc16_modbus crc_data
  let crc_bytes := packH crc
  let frame_tail := packH 0xAABB
  frame_header ++ crc_data ++ crc_bytes ++ frame_tail

/-! ## Dashboard broadcaster (src/main.py, _broadcast_to_dashboard) -/

/-- One dashboard WebSocket client. Whether send_json succeeds is a
property of the remote channel, modelled by the live flag: a send to a
live client succeeds, a send to a non-live client raises and lands in the
except branch. -/
structure Client where
  id : Nat
  live : Bool
deriving DecidableEq, Repr

/-- The sweep of _broadcast_to_dashboard over the current client set:
returns the ids delivered to and the disconnected set collected from the
failed sends. -/
def broadcastSweep : List Client → List Nat × List Client
  | [] => ([], [])
  | c :: rest =>
    let r := broadcastSweep rest
    if c.live then (c.id :: r.1, r.2) else (r.1, c :: r.2)

/-- UWBCollector._broadcast_to_dashboard: sweep every current client,
then remove the disconnected ones from the set (the Python set
difference). Returns the delivered ids and the new client set. -/
def broadcast_to_dashboard (clients : List Client) :
    List Nat × List Client :=
  let r := broadcastSweep clients
  (r.1, clients.filter (fun c => decide (c ∉ r.2)))

/-! ## Per-tag location-update processing (src/main.py,
_process_location_update) -/

/-- The position_update event sent to the dashboard for one tag. -/
structure PositionUpdateEvent where
  tag_id : Nat
  x : ℚ
  y : ℚ
  battery : Nat
  timestamp : Nat
  in_danger_zone : Bool
deriving DecidableEq, Repr

/-- The body of the per-tag loop of _process_location_update: build a
one-entry positions dict for the tag, run geofence evaluation on it, and
emit a position_update event whose in_danger_zone field is the test
len(alerts) > 0. Returns the updated _fired state, the alerts of this
call, and the event. -/
def process_location_update_tag (svc : GeofencingService) (f : Fired)
    (now : ℚ) (tag : TagLocationInfo) :
    Fired × List Alert × PositionUpdateEvent :=
  let r := process_positions svc now
    [(tag.tag_id, (tag.x_coordinate, tag.y_coordinate))] f
  (r.1, r.2,
    { tag_id := tag.tag_id
      x := tag.x_coordinate
      y := tag.y_coordinate
      battery := tag.battery
      timestamp := tag.timestamp
      in_danger_zone := decide (r.2.length > 0) })

/-! ## Spec-side byte encodings and concrete sample objects -/

/-- Big-endian 2-byte encoding as the spec words it (independent of the
struct.pack shift-and-mask formulation). -/
def specBE16 (n : Nat) : Bytes := [n / 256 % 256, n % 256]

/-- Big-endian 4-byte encoding as the spec words it. -/
def specBE32 (n : Nat) : Bytes :=
  [n / 16777216 % 256, n / 65536 % 256, n / 256 % 256, n % 256]

/-- Sample zone used by concrete witnesses. -/
def zoneA : Zone := ⟨1, 1, 2, 2, "A"⟩

/-- Sample service with one zone, a 10-second retrigger interval and no
target-tag filter. -/
def svcOne : GeofencingService := ⟨[zoneA], some 10, none⟩

/-- Sample hysteresis state with one stale entry for tag 7 in zone A,
fired at time 0. -/
def firedStale : Fired := insertFired emptyFired (7, "A") 0

/-- Sample decoded tag used by concrete witnesses. -/
def tagSample : TagLocationInfo :=
  ⟨7, 3/2, 3/2, 0, 3, 80, false, false, 42, 2, 1, "relative"⟩

/-! ## C3, C6, C8 -/

/-- C3: for every valid zone (min_x < max_x, min_y < max_y),
contains_point uses closed bounds: (x, y) is contained iff
min_x ≤ x ≤ max_x and min_y ≤ y ≤ max_y; in particular both the
bottom-left and top-right corners are contained. -/
theorem zone_contains_point_closed_bounds (z : Zone)
    (hx : z.min_x < z.max_x) (hy : z.min_y < z.max_y) :
    (∀ x y, z.contains_point x y = true ↔
      (z.min_x ≤ x ∧ x ≤ z.max_x ∧ z.min_y ≤ y ∧ y ≤ z.max_y)) ∧
    z.contains_point z.min_x z.min_y = true ∧
    z.contains_point z.max_x z.max_y = true := by
  have hmain : ∀ x y, z.contains_point x y = true ↔
      (z.min_x ≤ x ∧ x ≤ z.max_x ∧ z.min_y ≤ y ∧ y ≤ z.max_y) := by
    intro x y
    simp only [Zone.contains_point, Zone.polygonVertices, insideOrOnCCW,
      cross, Bool.and_eq_true, decide_eq_true_eq, and_true]
    constructor
    · rintro ⟨h1, h2, h3, h4⟩
      refine ⟨?_, ?_, ?_, ?_⟩ <;> nlinarith
    · rintro ⟨h1, h2, h3, h4⟩
      refine ⟨?_, ?_, ?_, ?_⟩ <;> nlinarith
  refine ⟨hmain, ?_, ?_⟩
  · exact (hmain z.min_x z.min_y).mpr
      ⟨le_refl _, le_of_lt hx, le_refl _, le_of_lt hy⟩
  · exact (hmain z.max_x z.max_y).mpr
      ⟨le_of_lt hx, le_refl _, le_of_lt hy, le_refl _⟩

/-- Witness for C3 at the concrete zone (0,0)-(1,1). -/
theorem zone_contains_point_closed_bounds_witness :
    (Zone.mk 0 0 1 1 "w").contains_point 0 0 = true ∧
    (Zone.mk 0 0 1 1 "w").contains_point 1 1 = true :=
  ⟨(zone_contains_point_closed_bounds ⟨0, 0, 1, 1, "w"⟩ (by norm_num)
      (by norm_num)).2.1,
   (zone_contains_point_closed_bounds ⟨0, 0, 1, 1, "w"⟩ (by norm_num)
      (by norm_num)).2.2⟩

set_option maxRecDepth 4000 in
/-- C6: the CRC routine used for the auth packet agrees with reference
CRC-16/MODBUS on the check vectors: the ASCII bytes of 123456789 hash to
0x4B37, and the empty byte string hashes to the 0xFFFF initial value. -/
theorem crc16_modbus_reference_vectors :
    calculate_crc16_modbus
        [0x31, 0x32, 0x33, 0x34, 0x35, 0x36, 0x37, 0x38, 0x39] = 0x4B37 ∧
    calculate_crc16_modbus [] = 0xFFFF := by
  constructor <;> decide

/-- C8: zone construction with min_x ≥ max_x or min_y ≥ max_y fails with
an error, and every successfully constructed zone satisfies
min_x < max_x and min_y < max_y. -/
theorem zone_construction_validates (min_x min_y max_x max_y : ℚ)
    (name : String) :
    ((min_x ≥ max_x ∨ min_y ≥ max_y) →
      ∃ e, mkZone min_x min_y max_x max_y name = Except.error e) ∧
    (∀ z, mkZone min_x min_y max_x max_y name = Except.ok z →
      z.min_x < z.max_x ∧ z.min_y < z.max_y) := by
  constructor
  · intro h
    unfold mkZone
    by_cases h1 : min_x ≥ max_x
    · rw [if_pos h1]; exact ⟨_, rfl⟩
    · rcases h with h | h
      · exact absurd h h1
      · rw [if_neg h1, if_pos h]; exact ⟨_, rfl⟩
  · intro z hz
    unfold mkZone at hz
    by_cases h1 : min_x ≥ max_x
    · rw [if_pos h1] at hz; cases hz
    · rw [if_neg h1] at hz
      by_cases h2 : min_y ≥ max_y
      · rw [if_pos h2] at hz; cases hz
      · rw [if_neg h2] at hz
        cases hz
        exact ⟨lt_of_not_ge h1, lt_of_not_ge h2⟩

/-- Witness for C8: a flipped-x zone fails, and a valid zone carries the
invariant. -/
theorem zone_construction_validates_witness :
    (∃ e, mkZone 2 0 1 3 "w" = Except.error e) ∧
    ((1 : ℚ) < 2 ∧ (0 : ℚ) < 3) :=
  ⟨(zone_construction_validates 2 0 1 3 "w").1 (Or.inl (by norm_num)),
   (zone_construction_validates 1 0 2 3 "w").2 ⟨1, 0, 2, 3, "w"⟩
     (by norm_num [mkZone])⟩

/-! ## C5: auth packet layout -/

/-- Masking with 0xFF is reduction mod 256. -/
theorem and_255_eq_mod (m : Nat) : m &&& 0xFF = m % 256 := by
  have h : (0xFF : Nat) = 2 ^ 8 - 1 := by norm_num
  rw [h, Nat.and_pow_two_sub_one_eq_mod]

/-- The struct.pack H formulation agrees with the spec-side big-endian
2-byte encoding. -/
theorem packH_eq_specBE16 (n : Nat) : packH n = specBE16 n := by
  simp only [packH, specBE16, Nat.shiftRight_eq_div_pow, and_255_eq_mod]

/-- The struct.pack I formulation agrees with the spec-side big-endian
4-byte encoding. -/
theorem packI_eq_specBE32 (n : Nat) : packI n = specBE32 n := by
  simp only [packI, specBE32, Nat.shiftRight_eq_div_pow, and_255_eq_mod]

/-- C5: the auth packet is exactly the concatenation of the 0xCC5F
header, the 0x27 frame type, the 4-byte big-endian username length, the
username, the 4-byte big-endian length of MD5(MD5(password) || salt),
that salted hash, the big-endian CRC-16/MODBUS over the bytes from the
frame type through the password field, and the 0xAABB trailer. -/
theorem auth_packet_layout (md5hex : Bytes → Bytes)
    (username password salt : Bytes) :
    create_auth_packet md5hex username password salt =
      [0xCC, 0x5F] ++ [0x27] ++
      specBE32 username.length ++ username ++
      specBE32 (md5hex (md5hex password ++ salt)).length ++
      md5hex (md5hex password ++ salt) ++
      specBE16 (calculate_crc16_modbus
        ([0x27] ++ specBE32 username.length ++ username ++
         specBE32 (md5hex (md5hex password ++ salt)).length ++
         md5hex (md5hex password ++ salt))) ++
      [0xAA, 0xBB] := by
  have hhd : packH 0xCC5F = [0xCC, 0x5F] := by decide
  have htl : packH 0xAABB = [0xAA, 0xBB] := by decide
  have hty : packB 0x27 = [0x27] := by decide
  simp only [create_auth_packet, packI_eq_specBE32, List.append_assoc]
  rw [hhd, hty, htl, packH_eq_specBE16]

/-! ## C4, C10: location-frame parsing -/

/-- C4: the decoder returns the empty list whenever the total length is
below 5, the header is not 0xCC5F, the frame type is none of 0x81, 0xB4,
0xB5, the declared tag count is 0, or the total length is shorter than
4 + tagCount * 23 + 4 (the decoder is total, so it never raises). -/
theorem parse_tag_location_data_fails_soft (data : Bytes)
    (h : data.length < 5 ∨ u16be data 0 ≠ 0xCC5F ∨
      (byteAt data 2 ≠ 0x81 ∧ byteAt data 2 ≠ 0xB4 ∧ byteAt data 2 ≠ 0xB5) ∨
      byteAt data 3 = 0 ∨ data.length < 4 + byteAt data 3 * 23 + 4) :
    parse_tag_location_data data = [] := by
  by_cases h5 : data.length < 5
  · simp [parse_tag_location_data, h5]
  · by_cases hh : u16be data 0 = 0xCC5F
    · cases hct : coordinateTypeOf (byteAt data 2) with
      | none => simp [parse_tag_location_data, h5, hh, hct]
      | some ct =>
        by_cases hn : byteAt data 3 = 0
        · simp [parse_tag_location_data, h5, hh, hct, hn]
        · by_cases hlen : data.length < 4 + byteAt data 3 * 23 + 4
          · simp [parse_tag_location_data, h5, hh, hct, hn, hlen]
          · exfalso
            rcases h with h | h | h | h | h
            · exact h5 h
            · exact h hh
            · rw [coordinateTypeOf, if_neg h.1, if_neg h.2.1,
                if_neg h.2.2] at hct
              cases hct
            · exact hn h
            · exact hlen h
    · simp [parse_tag_location_data, h5, hh]

/-- Witness for C4 at a 1-byte input. -/
theorem parse_tag_location_data_fails_soft_witness :
    ([0xCC] : Bytes).length < 5 ∧ parse_tag_location_data [0xCC] = [] :=
  ⟨by decide, parse_tag_location_data_fails_soft [0xCC] (Or.inl (by decide))⟩

/-- When the remaining input covers all declared records plus the 4-byte
footer, the record loop parses exactly as many records as declared: the
early-stop guard never fires. -/
theorem parseTagRecords_length_eq (data : Bytes) (ft : Nat) (ct : String) :
    ∀ (n offset : Nat), offset + 23 * n + 4 ≤ data.length →
      (parseTagRecords data ft ct n offset).length = n := by
  intro n
  induction n with
  | zero => intro offset _; rfl
  | succ m ih =>
    intro offset h
    simp only [parseTagRecords]
    rw [if_neg (by omega)]
    simp [ih (offset + 23) (by omega)]

/-- C10: the decoder is all-or-nothing: every input yields either the
empty list or exactly the declared tag count of fully-parsed records;
the early-stop branch never truncates a batch the guards admitted. -/
theorem parse_tag_location_data_all_or_nothing (data : Bytes) :
    parse_tag_location_data data = [] ∨
    (parse_tag_location_data data).length = byteAt data 3 := by
  by_cases h5 : data.length < 5
  · exact Or.inl (by simp [parse_tag_location_data, h5])
  · by_cases hh : u16be data 0 = 0xCC5F
    · cases hct : coordinateTypeOf (byteAt data 2) with
      | none => exact Or.inl (by simp [parse_tag_location_data, h5, hh, hct])
      | some ct =>
        by_cases hn : byteAt data 3 = 0
        · exact Or.inl (by simp [parse_tag_location_data, h5, hh, hct, hn])
        · by_cases hlen : data.length < 4 + byteAt data 3 * 23 + 4
          · exact Or.inl
              (by simp [parse_tag_location_data, h5, hh, hct, hn, hlen])
          · refine Or.inr ?_
            have hrec := parseTagRecords_length_eq data (byteAt data 2) ct
              (byteAt data 3) 4 (by omega)
            simp [parse_tag_location_data, h5, hh, hct, hn, hlen, hrec]
    · exact Or.inl (by simp [parse_tag_location_data, h5, hh])

/-! ## C7: dashboard broadcast -/

/-- The sweep delivers to exactly the live clients, in order, and
collects exactly the non-live ones as disconnected. -/
theorem broadcastSweep_eq (clients : List Client) :
    broadcastSweep clients =
      ((clients.filter (fun c => c.live)).map Client.id,
       clients.filter (fun c => !c.live)) := by
  induction clients with
  | nil => rfl
  | cons c rest ih =>
    cases hc : c.live <;> simp [broadcastSweep, ih, hc]

/-- C7: one publish sweep attempts and succeeds delivery to every live
subscriber, and the post-publish subscriber set is exactly the prior set
minus the subscribers whose delivery failed. -/
theorem broadcast_to_dashboard_delivers_and_reaps (clients : List Client) :
    (broadcast_to_dashboard clients).1 =
      (clients.filter (fun c => c.live)).map Client.id ∧
    (broadcast_to_dashboard clients).2 = clients.filter (fun c => c.live) := by
  constructor
  · simp [broadcast_to_dashboard, broadcastSweep_eq]
  · simp only [broadcast_to_dashboard, broadcastSweep_eq]
    apply List.filter_congr
    intro c hc
    by_cases hl : c.live
    · simp [hl, List.mem_filter]
    · simp [hl, List.mem_filter, hc]

/-! ## C9: in_danger_zone field of position_update -/

/-- C9: the in_danger_zone field of the position_update event is true iff
the geofence evaluation of that position emitted at least one alert in
the same call; in particular a tag sitting inside a zone whose retrigger
window has not elapsed gets in_danger_zone = false. -/
theorem position_update_in_danger_zone (svc : GeofencingService)
    (f : Fired) (now : ℚ) (tag : TagLocationInfo) :
    ((process_location_update_tag svc f now tag).2.2.in_danger_zone = true ↔
      (process_positions svc now
        [(tag.tag_id, (tag.x_coordinate, tag.y_coordinate))] f).2 ≠ []) ∧
    (∀ z r last, svc.zones = [z] → svc.retrigger_after_sec = some r →
      skipTag svc tag.tag_id = false →
      z.contains_point tag.x_coordinate tag.y_coordinate = true →
      f (tag.tag_id, z.name) = some last → now - last < r →
      (process_location_update_tag svc f now tag).2.2.in_danger_zone =
        false) := by
  constructor
  · simp [process_location_update_tag, List.length_pos]
  · intro z r last hz hr hskip hcont hlast hlt
    have hcf : can_fire svc f (tag.tag_id, z.name) now = false := by
      simp [can_fire, canFireEntry, hr, hlast]
      linarith
    simp [process_location_update_tag, process_positions, processTags,
      hskip, hz, processZones, stepZone, clear_if_outside, hcont, hcf]

/-- Witness for C9: tag 7 sits at (1.5, 1.5) inside zone A, the entry
fired at time 0 and the call happens at time 5 with a 10-second
retrigger interval, so the position_update says in_danger_zone false. -/
theorem position_update_in_danger_zone_witness :
    (process_location_update_tag svcOne firedStale 5
      tagSample).2.2.in_danger_zone = false :=
  (position_update_in_danger_zone svcOne firedStale 5 tagSample).2
    zoneA 10 0 rfl rfl rfl
    (by norm_num [Zone.contains_point, Zone.polygonVertices, insideOrOnCCW,
      cross, zoneA, tagSample])
    (by norm_num [firedStale, insertFired, emptyFired, tagSample, zoneA])
    (by norm_num)

/-! ## Hysteresis lemmas for C1 and C2 -/

/-- Case normal form of the zone-loop body: when the point is inside,
the clear is a no-op and the retrigger branch runs; when it is outside,
the entry is erased and nothing fires. -/
theorem stepZone_eq (svc : GeofencingService) (now : ℚ) (tid : Nat)
    (p : ℚ × ℚ) (z : Zone) (f : Fired) :
    stepZone svc now tid p z f =
      if z.contains_point p.1 p.2 then
        (if can_fire svc f (tid, z.name) now then
          (insertFired f (tid, z.name) now, [Alert.mk tid z p])
        else (f, []))
      else (eraseFired f (tid, z.name), []) := by
  unfold stepZone clear_if_outside
  by_cases hc : z.contains_point p.1 p.2 = true <;> simp [hc]

/-- The zone-loop body leaves every other hysteresis key unchanged. -/
theorem stepZone_apply_ne (svc : GeofencingService) (now : ℚ) (tid : Nat)
    (p : ℚ × ℚ) (z : Zone) (f : Fired) (k : Key)
    (h : k ≠ (tid, z.name)) :
    (stepZone svc now tid p z f).1 k = f k := by
  rw [stepZone_eq]
  by_cases hc : z.contains_point p.1 p.2 = true
  · by_cases hcf : can_fire svc f (tid, z.name) now = true
    · simp [hc, hcf, insertFired, h]
    · simp [hc, hcf]
  · simp [hc, eraseFired, h]

/-- The zone-loop body emits at most the alert for its own tag, zone and
position. -/
theorem stepZone_alert_mem (svc : GeofencingService) (now : ℚ) (tid : Nat)
    (p : ℚ × ℚ) (z : Zone) (f : Fired) (a : Alert)
    (h : a ∈ (stepZone svc now tid p z f).2) : a = Alert.mk tid z p := by
  rw [stepZone_eq] at h
  by_cases hc : z.contains_point p.1 p.2 = true
  · rw [if_pos hc] at h
    by_cases hcf : can_fire svc f (tid, z.name) now = true
    · rw [if_pos hcf] at h; simpa using h
    · rw [if_neg hcf] at h; simp at h
  · rw [if_neg hc] at h; simp at h

/-- The zone loop only writes keys of its own tag and of zones in its
list. -/
theorem processZones_apply_ne (svc : GeofencingService) (now : ℚ)
    (tid : Nat) (p : ℚ × ℚ) :
    ∀ (zs : List Zone) (f : Fired) (k : Key),
      (∀ z ∈ zs, k ≠ (tid, z.name)) →
      (processZones svc now tid p zs f).1 k = f k := by
  intro zs
  induction zs with
  | nil => intro f k _; rfl
  | cons z zs ih =>
    intro f k h
    simp only [processZones]
    rw [ih _ k (fun z' hz' => h z' (List.mem_cons_of_mem z hz'))]
    exact stepZone_apply_ne svc now tid p z f k (h z (List.mem_cons_self z zs))

/-- Every alert emitted by the zone loop carries the loop's tag and
position and a zone of the list. -/
theorem processZones_alert_shape (svc : GeofencingService) (now : ℚ)
    (tid : Nat) (p : ℚ × ℚ) :
    ∀ (zs : List Zone) (f : Fired) (a : Alert),
      a ∈ (processZones svc now tid p zs f).2 →
      a.tag_id = tid ∧ a.position = p ∧ a.zone ∈ zs := by
  intro zs
  induction zs with
  | nil => intro f a h; cases h
  | cons z zs ih =>
    intro f a h
    simp only [processZones, List.mem_append] at h
    rcases h with h | h
    · have ha := stepZone_alert_mem svc now tid p z f a h
      subst ha
      exact ⟨rfl, rfl, List.mem_cons_self z zs⟩
    · obtain ⟨h1, h2, h3⟩ := ih _ a h
      exact ⟨h1, h2, List.mem_cons_of_mem z h3⟩

/-- Central zone-loop lemma: for a zone with a name distinct from every
other zone of the list, when the point is inside that zone, the alert
for it is emitted iff the retrigger check on the pre-call entry passes,
and the key is overwritten with now exactly when it fires. -/
theorem processZones_fire_spec (svc : GeofencingService) (now : ℚ)
    (tid : Nat) (p : ℚ × ℚ) :
    ∀ (zs : List Zone) (f : Fired) (z : Zone), z ∈ zs →
      zs.Pairwise (fun a b => a.name ≠ b.name) →
      z.contains_point p.1 p.2 = true →
      ((Alert.mk tid z p ∈ (processZones svc now tid p zs f).2 ↔
        can_fire svc f (tid, z.name) now = true) ∧
       (processZones svc now tid p zs f).1 (tid, z.name) =
        (if can_fire svc f (tid, z.name) now = true then some now
         else f (tid, z.name))) := by
  intro zs
  induction zs with
  | nil => intro f z hz; cases hz
  | cons z1 zs ih =>
    intro f z hz hpw hc
    obtain ⟨hhead, htail⟩ := List.pairwise_cons.mp hpw
    simp only [processZones]
    rcases List.mem_cons.mp hz with rfl | hz'
    · have hother : ∀ z' ∈ zs, ((tid, z.name) : Key) ≠ (tid, z'.name) := by
        intro z' hz' heq
        exact hhead z' hz' (congrArg Prod.snd heq)
      rw [stepZone_eq, if_pos hc]
      by_cases hcf : can_fire svc f (tid, z.name) now = true
      · rw [if_pos hcf]
        constructor
        · constructor
          · intro _; exact hcf
          · intro _
            exact List.mem_append.mpr (Or.inl (List.mem_singleton.mpr rfl))
        · rw [processZones_apply_ne svc now tid p zs _ _ hother]
          simp [insertFired, hcf]
      · rw [if_neg hcf]
        constructor
        · constructor
          · intro hmem
            rcases List.mem_append.mp hmem with hmem | hmem
            · simp at hmem
            · obtain ⟨_, _, hzone⟩ :=
                processZones_alert_shape svc now tid p zs _ _ hmem
              exact absurd rfl (hhead z hzone)
          · intro hcf'; exact absurd hcf' hcf
        · rw [processZones_apply_ne svc now tid p zs _ _ hother]
          simp [hcf]
    · have hne : ((tid, z.name) : Key) ≠ (tid, z1.name) := by
        intro heq
        exact hhead z hz' (congrArg Prod.snd heq).symm
      have hstep := stepZone_apply_ne svc now tid p z1 f _ hne
      have hcfeq : can_fire svc (stepZone svc now tid p z1 f).1
          (tid, z.name) now = can_fire svc f (tid, z.name) now := by
        unfold can_fire; rw [hstep]
      obtain ⟨ihmem, ihstate⟩ :=
        ih ((stepZone svc now tid p z1 f).1) z hz' htail hc
      constructor
      · constructor
        · intro hmem
          rcases List.mem_append.mp hmem with hmem | hmem
          · have ha := stepZone_alert_mem svc now tid p z1 f _ hmem
            have hz1 : z = z1 := congrArg Alert.zone ha
            exact absurd (congrArg Zone.name hz1).symm (hhead z hz')
          · exact hcfeq ▸ ihmem.mp hmem
        · intro hcf
          exact List.mem_append.mpr
            (Or.inr (ihmem.mpr (by rw [hcfeq]; exact hcf)))
      · rw [ihstate, hcfeq, hstep]

/-- Central zone-loop clearing lemma: when the point is outside a zone
whose name is distinct from every other zone of the list, the loop
leaves no entry for that key. -/
theorem processZones_clear_spec (svc : GeofencingService) (now : ℚ)
    (tid : Nat) (p : ℚ × ℚ) :
    ∀ (zs : List Zone) (f : Fired) (z : Zone), z ∈ zs →
      zs.Pairwise (fun a b => a.name ≠ b.name) →
      z.contains_point p.1 p.2 = false →
      (processZones svc now tid p zs f).1 (tid, z.name) = none := by
  intro zs
  induction zs with
  | nil => intro f z hz; cases hz
  | cons z1 zs ih =>
    intro f z hz hpw hc
    obtain ⟨hhead, htail⟩ := List.pairwise_cons.mp hpw
    simp only [processZones]
    rcases List.mem_cons.mp hz with rfl | hz'
    · rw [processZones_apply_ne svc now tid p zs _ _
        (fun z' hz' heq => hhead z' hz' (congrArg Prod.snd heq))]
      rw [stepZone_eq, if_neg (by simp [hc])]
      simp [eraseFired]
    · exact ih _ z hz' htail hc

/-- The batch loop only writes hysteresis keys of tags present in the
batch. -/
theorem processTags_apply_ne (svc : GeofencingService) (now : ℚ) :
    ∀ (ts : List (Nat × (ℚ × ℚ))) (f : Fired) (k : Key),
      (∀ t ∈ ts, k.1 ≠ t.1) →
      (processTags svc now ts f).1 k = f k := by
  intro ts
  induction ts with
  | nil => intro f k _; rfl
  | cons t ts ih =>
    intro f k h
    obtain ⟨tid, p⟩ := t
    simp only [processTags]
    by_cases hs : skipTag svc tid = true
    · rw [if_pos hs]
      exact ih f k (fun t' ht' => h t' (List.mem_cons_of_mem _ ht'))
    · rw [if_neg hs]
      rw [ih _ k (fun t' ht' => h t' (List.mem_cons_of_mem _ ht'))]
      apply processZones_apply_ne
      intro z' _ heq
      exact h (tid, p) (List.mem_cons_self _ _) (congrArg Prod.fst heq)

/-- Every alert emitted by the batch loop carries a tag id present in
the batch. -/
theorem processTags_alert_shape (svc : GeofencingService) (now : ℚ) :
    ∀ (ts : List (Nat × (ℚ × ℚ))) (f : Fired) (a : Alert),
      a ∈ (processTags svc now ts f).2 → ∃ t ∈ ts, a.tag_id = t.1 := by
  intro ts
  induction ts with
  | nil => intro f a h; cases h
  | cons t ts ih =>
    intro f a h
    obtain ⟨tid, p⟩ := t
    simp only [processTags] at h
    by_cases hs : skipTag svc tid = true
    · rw [if_pos hs] at h
      obtain ⟨t', ht', ha⟩ := ih f a h
      exact ⟨t', List.mem_cons_of_mem _ ht', ha⟩
    · rw [if_neg hs] at h
      rcases List.mem_append.mp h with h | h
      · obtain ⟨h1, _, _⟩ := processZones_alert_shape svc now tid p _ _ a h
        exact ⟨(tid, p), List.mem_cons_self _ _, h1⟩
      · obtain ⟨t', ht', ha⟩ := ih _ a h
        exact ⟨t', List.mem_cons_of_mem _ ht', ha⟩

/-- Central batch lemma: for a non-filtered tag appearing once in the
batch and a zone with a unique name containing its position, the alert
is emitted iff the retrigger check on the pre-call entry passes, and the
key is overwritten with now exactly when it fires. -/
theorem processTags_fire_spec (svc : GeofencingService) (now : ℚ)
    (hzpw : svc.zones.Pairwise (fun a b => a.name ≠ b.name)) :
    ∀ (ts : List (Nat × (ℚ × ℚ))) (f : Fired) (tid : Nat) (p : ℚ × ℚ)
      (z : Zone),
      (tid, p) ∈ ts →
      ts.Pairwise (fun a b => a.1 ≠ b.1) →
      skipTag svc tid = false →
      z ∈ svc.zones →
      z.contains_point p.1 p.2 = true →
      ((Alert.mk tid z p ∈ (processTags svc now ts f).2 ↔
        can_fire svc f (tid, z.name) now = true) ∧
       (processTags svc now ts f).1 (tid, z.name) =
        (if can_fire svc f (tid, z.name) now = true then some now
         else f (tid, z.name))) := by
  intro ts
  induction ts with
  | nil => intro f tid p z h; cases h
  | cons t ts ih =>
    intro f tid p z hmem hpw hskip hz hc
    obtain ⟨tid1, p1⟩ := t
    obtain ⟨hhead, htail⟩ := List.pairwise_cons.mp hpw
    simp only [processTags]
    rcases List.mem_cons.mp hmem with heq | hmem'
    · injection heq with h1 h2
      subst h1; subst h2
      rw [if_neg (by simp [hskip])]
      obtain ⟨zmem, zstate⟩ :=
        processZones_fire_spec svc now tid p svc.zones f z hz hzpw hc
      have hother : ∀ t' ∈ ts, ((tid, z.name) : Key).1 ≠ t'.1 := by
        intro t' ht'
        simpa using hhead t' ht'
      constructor
      · constructor
        · intro hm
          rcases List.mem_append.mp hm with hm | hm
          · exact zmem.mp hm
          · obtain ⟨t', ht', ha⟩ := processTags_alert_shape svc now ts _ _ hm
            exact absurd ha (hother t' ht')
        · intro hcf
          exact List.mem_append.mpr (Or.inl (zmem.mpr hcf))
      · rw [processTags_apply_ne svc now ts _ _ hother]
        exact zstate
    · have htid : tid1 ≠ tid := by simpa using hhead (tid, p) hmem'
      by_cases hs : skipTag svc tid1 = true
      · rw [if_pos hs]
        exact ih f tid p z hmem' htail hskip hz hc
      · rw [if_neg hs]
        have hframe : (processZones svc now tid1 p1 svc.zones f).1
            (tid, z.name) = f (tid, z.name) := by
          apply processZones_apply_ne
          intro z' _ heq
          exact htid (congrArg Prod.fst heq).symm
        have hcfeq : can_fire svc
            (processZones svc now tid1 p1 svc.zones f).1 (tid, z.name) now
            = can_fire svc f (tid, z.name) now := by
          unfold can_fire; rw [hframe]
        obtain ⟨ihmem, ihstate⟩ :=
          ih ((processZones svc now tid1 p1 svc.zones f).1) tid p z hmem'
            htail hskip hz hc
        constructor
        · constructor
          · intro hm
            rcases List.mem_append.mp hm with hm | hm
            · obtain ⟨h1, _, _⟩ :=
                processZones_alert_shape svc now tid1 p1 svc.zones f _ hm
              exact absurd h1 htid.symm
            · exact hcfeq ▸ ihmem.mp hm
          · intro hcf
            exact List.mem_append.mpr
              (Or.inr (ihmem.mpr (by rw [hcfeq]; exact hcf)))
        · rw [ihstate, hcfeq, hframe]

/-- Central batch clearing lemma: a non-filtered tag appearing once in
the batch and observed outside a uniquely-named zone leaves no entry for
that key after the call. -/
theorem processTags_clear_spec (svc : GeofencingService) (now : ℚ)
    (hzpw : svc.zones.Pairwise (fun a b => a.name ≠ b.name)) :
    ∀ (ts : List (Nat × (ℚ × ℚ))) (f : Fired) (tid : Nat) (p : ℚ × ℚ)
      (z : Zone),
      (tid, p) ∈ ts →
      ts.Pairwise (fun a b => a.1 ≠ b.1) →
      skipTag svc tid = false →
      z ∈ svc.zones →
      z.contains_point p.1 p.2 = false →
      (processTags svc now ts f).1 (tid, z.name) = none := by
  intro ts
  induction ts with
  | nil => intro f tid p z h; cases h
  | cons t ts ih =>
    intro f tid p z hmem hpw hskip hz hc
    obtain ⟨tid1, p1⟩ := t
    obtain ⟨hhead, htail⟩ := List.pairwise_cons.mp hpw
    simp only [processTags]
    rcases List.mem_cons.mp hmem with heq | hmem'
    · injection heq with h1 h2
      subst h1; subst h2
      rw [if_neg (by simp [hskip])]
      rw [processTags_apply_ne svc now ts _ _
        (fun t' ht' => by simpa using hhead t' ht')]
      exact processZones_clear_spec svc now tid p svc.zones f z hz hzpw hc
    · by_cases hs : skipTag svc tid1 = true
      · rw [if_pos hs]
        exact ih f tid p z hmem' htail hskip hz hc
      · rw [if_neg hs]
        exact ih _ tid p z hmem' htail hskip hz hc

/-- With a configured retrigger interval, the retrigger check passes iff
no entry exists for the key or the interval has elapsed since the
entry's timestamp. -/
theorem can_fire_some_iff (svc : GeofencingService) (f : Fired) (k : Key)
    (now r : ℚ) (hr : svc.retrigger_after_sec = some r) :
    can_fire svc f k now = true ↔
      (f k = none ∨ ∃ last, f k = some last ∧ r ≤ now - last) := by
  unfold can_fire canFireEntry
  rw [hr]
  cases hfk : f k with
  | none => simp
  | some last => simp

/-! ## C1, C2 -/

/-- C1: in any evaluation call, for every batch position (under the
dict's one-position-per-tag shape and the configured data model of
uniquely named zones, with the position passing the target filter) that
lies inside a configured zone, the alert for (tag_id, zone) is emitted
iff no entry exists for (tag_id, zone.name) or now minus the entry's
timestamp is at least retrigger_after_sec; when it fires the entry is
overwritten with now, and when it does not fire the entry is unchanged. -/
theorem process_positions_alert_iff_retrigger (svc : GeofencingService)
    (now r : ℚ) (positions : List (Nat × (ℚ × ℚ))) (f : Fired)
    (tid : Nat) (p : ℚ × ℚ) (z : Zone)
    (hr : svc.retrigger_after_sec = some r)
    (hzones : svc.zones.Pairwise (fun a b => a.name ≠ b.name))
    (hkeys : positions.Pairwise (fun a b => a.1 ≠ b.1))
    (hmem : (tid, p) ∈ positions)
    (hskip : skipTag svc tid = false)
    (hz : z ∈ svc.zones)
    (hin : z.contains_point p.1 p.2 = true) :
    (Alert.mk tid z p ∈ (process_positions svc now positions f).2 ↔
      (f (tid, z.name) = none ∨
        ∃ last, f (tid, z.name) = some last ∧ r ≤ now - last)) ∧
    ((f (tid, z.name) = none ∨
        ∃ last, f (tid, z.name) = some last ∧ r ≤ now - last) →
      (process_positions svc now positions f).1 (tid, z.name) = some now) ∧
    (¬(f (tid, z.name) = none ∨
        ∃ last, f (tid, z.name) = some last ∧ r ≤ now - last) →
      (process_positions svc now positions f).1 (tid, z.name) =
        f (tid, z.name)) := by
  obtain ⟨hmem', hstate⟩ := processTags_fire_spec svc now hzones positions
    f tid p z hmem hkeys hskip hz hin
  rw [can_fire_some_iff svc f (tid, z.name) now r hr] at hmem'
  refine ⟨hmem', ?_, ?_⟩
  · intro hcf
    unfold process_positions
    rw [hstate,
      if_pos ((can_fire_some_iff svc f (tid, z.name) now r hr).mpr hcf)]
  · intro hncf
    unfold process_positions
    rw [hstate, if_neg
      (fun h => hncf ((can_fire_some_iff svc f (tid, z.name) now r hr).mp h))]

/-- Witness for C1: tag 7 enters zone A at time 0 with empty hysteresis
state, and the alert is emitted. -/
theorem process_positions_alert_iff_retrigger_witness :
    Alert.mk 7 zoneA (3/2, 3/2) ∈
      (process_positions svcOne 0 [(7, (3/2, 3/2))] emptyFired).2 :=
  (process_positions_alert_iff_retrigger svcOne 0 10 [(7, (3/2, 3/2))]
    emptyFired 7 (3/2, 3/2) zoneA rfl (by simp [svcOne]) (by simp)
    (by simp) rfl (by simp [svcOne])
    (by norm_num [Zone.contains_point, Zone.polygonVertices, insideOrOnCCW,
      cross, zoneA])).1.mpr (Or.inl rfl)

/-- C2: after any evaluation call, a non-filtered tag of the batch
observed outside a zone has no hysteresis entry for that zone (under the
dict's one-position-per-tag shape and uniquely named zones); and
consequently a tag that enters, exits, and re-enters within the
retrigger window fires a new alert on re-entry. -/
theorem process_positions_clear_on_exit :
    (∀ (svc : GeofencingService) (now : ℚ)
      (positions : List (Nat × (ℚ × ℚ))) (f : Fired) (tid : Nat)
      (p : ℚ × ℚ) (z : Zone),
      svc.zones.Pairwise (fun a b => a.name ≠ b.name) →
      positions.Pairwise (fun a b => a.1 ≠ b.1) →
      (tid, p) ∈ positions →
      skipTag svc tid = false →
      z ∈ svc.zones →
      z.contains_point p.1 p.2 = false →
      (process_positions svc now positions f).1 (tid, z.name) = none) ∧
    (∀ (svc : GeofencingService) (z : Zone) (tid : Nat)
      (pIn pOut : ℚ × ℚ) (f0 : Fired) (now1 now2 now3 r : ℚ),
      svc.zones = [z] →
      svc.retrigger_after_sec = some r →
      skipTag svc tid = false →
      z.contains_point pIn.1 pIn.2 = true →
      z.contains_point pOut.1 pOut.2 = false →
      now3 - now1 < r →
      Alert.mk tid z pIn ∈
        (process_positions svc now3 [(tid, pIn)]
          (process_positions svc now2 [(tid, pOut)]
            (process_positions svc now1 [(tid, pIn)] f0).1).1).2) := by
  constructor
  · intro svc now positions f tid p z hzones hkeys hmem hskip hz hc
    exact processTags_clear_spec svc now hzones positions f tid p z hmem
      hkeys hskip hz hc
  · intro svc z tid pIn pOut f0 now1 now2 now3 r hz hr hskip hcIn hcOut _
    have hpw : svc.zones.Pairwise (fun a b => a.name ≠ b.name) := by
      rw [hz]; simp
    have hzmem : z ∈ svc.zones := by rw [hz]; simp
    have hclear : (process_positions svc now2 [(tid, pOut)]
        (process_positions svc now1 [(tid, pIn)] f0).1).1 (tid, z.name) =
        none :=
      processTags_clear_spec svc now2 hpw [(tid, pOut)] _ tid pOut z
        (by simp) (by simp) hskip hzmem hcOut
    obtain ⟨hmem3, _⟩ := processTags_fire_spec svc now3 hpw [(tid, pIn)]
      ((process_positions svc now2 [(tid, pOut)]
        (process_positions svc now1 [(tid, pIn)] f0).1).1) tid pIn z
      (by simp) (by simp) hskip hzmem hcIn
    apply hmem3.mpr
    unfold can_fire
    rw [hclear]
    simp [canFireEntry, hr]

/-- Witness for C2: tag 7 observed at (5, 5) outside zone A clears the
stale entry, and the enter-exit-re-enter sequence at times 0, 4, 9
(within the 10-second retrigger window) fires on re-entry. -/
theorem process_positions_clear_on_exit_witness :
    (process_positions svcOne 0 [(7, (5, 5))] firedStale).1
      (7, zoneA.name) = none ∧
    Alert.mk 7 zoneA (3/2, 3/2) ∈
      (process_positions svcOne 9 [(7, (3/2, 3/2))]
        (process_positions svcOne 4 [(7, (5, 5))]
          (process_positions svcOne 0 [(7, (3/2, 3/2))] emptyFired).1).1).2 :=
  ⟨process_positions_clear_on_exit.1 svcOne 0 [(7, (5, 5))] firedStale 7
      (5, 5) zoneA (by simp [svcOne]) (by simp) (by simp) rfl
      (by simp [svcOne])
      (by norm_num [Zone.contains_point, Zone.polygonVertices,
        insideOrOnCCW, cross, zoneA]),
   process_positions_clear_on_exit.2 svcOne zoneA 7 (3/2, 3/2) (5, 5)
      emptyFired 0 4 9 10 rfl rfl rfl
      (by norm_num [Zone.contains_point, Zone.polygonVertices,
        insideOrOnCCW, cross, zoneA])
      (by norm_num [Zone.contains_point, Zone.polygonVertices,
        insideOrOnCCW, cross, zoneA])
      (by norm_num)⟩
